import Mathlib

/-!
Shallow embedding of the check_load plugin (src/plugins/check_load.c) and
proofs about it.  Machine doubles are modelled as rationals, C strings as
lists of characters, and the fatal `die`/`usage` exits as `Option`/error
results.  Definitions follow the C source closely; each doc comment names
the source lines being embedded.
-/

namespace CheckLoad

/-- Characters treated as whitespace by C `isspace` (the ones relevant to
`strtod`'s leading-whitespace skip). -/
def isSpaceChar (c : Char) : Bool :=
  c = ' ' || c = '\t' || c = '\n' || c = '\r'

/-- Decimal digit test, as in C `isdigit`. -/
def isDigitChar (c : Char) : Bool :=
  '0' ≤ c && c ≤ '9'

/-- Value of a string of decimal digits, most significant first. -/
def digitsVal (ds : List Char) : Nat :=
  ds.foldl (fun a c => 10 * a + (c.toNat - 48)) 0

/-- Sign handling of C `strtod`: an optional leading `+`/`-`.  Returns
whether the number is negated, the number of characters consumed, and the
rest of the input. -/
def strtodSign (s : List Char) : Bool × Nat × List Char :=
  match s with
  | [] => (false, 0, [])
  | c :: t =>
    if c = '-' then (true, 1, t)
    else if c = '+' then (false, 1, t)
    else (false, 0, c :: t)

/-- Significand handling of C `strtod` for plain decimal numerals: an
integer part `ip`, optionally followed by a point and a fractional part
`fp`, with at least one digit overall.  Returns the (unsigned) value — the
exact rational `(ip·10^k + fp) / 10^k` where `k` is the number of
fractional digits — the number of characters consumed, and whether a
conversion was performed. -/
def strtodNum (s : List Char) : Rat × Nat × Bool :=
  let ip := s.takeWhile isDigitChar
  let s3 := s.dropWhile isDigitChar
  if s3.head? = some '.' then
    let fp := s3.tail.takeWhile isDigitChar
    if ip.length + fp.length = 0 then (0, 0, false)
    else (mkRat (digitsVal ip * 10 ^ fp.length + digitsVal fp) (10 ^ fp.length),
          ip.length + 1 + fp.length, true)
  else if ip.length = 0 then (0, 0, false)
  else (mkRat (digitsVal ip) 1, ip.length, true)

/-- Model of C `strtod` restricted to plain decimal numerals (optional
whitespace, optional sign, digits with an optional fractional part; no
exponent, hexadecimal, infinity or NaN forms, which never occur in load
thresholds).  `strtod` is libc code, external to this repository.  Returns
the parsed value and the number of characters consumed; `(0, 0)` when no
conversion is performed (C: `*endptr == nptr`). -/
def strtod (s : List Char) : Rat × Nat :=
  let ws := s.takeWhile isSpaceChar
  let s1 := s.dropWhile isSpaceChar
  let sg := strtodSign s1
  let nm := strtodNum sg.2.2
  if nm.2.2 then (if sg.1 then -nm.1 else nm.1, ws.length + sg.2.1 + nm.2.1)
  else (0, 0)

/-- A string that `strtod` converts in full: the whole string is one
numeral. -/
def Numeral (s : List Char) : Prop :=
  (strtod s).2 = s.length ∧ 0 < s.length

instance (s : List Char) : Decidable (Numeral s) := by
  unfold Numeral; infer_instance

/-- The value `strtod` reads from a string. -/
def numVal (s : List Char) : Rat :=
  (strtod s).1

/-- Write `v` into cell `i` of a three-element array, i.e. C `th[i] = v`. -/
def thUpd (th : Fin 3 → Rat) (i : Nat) (v : Rat) : Fin 3 → Rat :=
  fun j => if j.val = i then v else th j

/-- The parsing loop of `get_threshold` (check_load.c lines 82-90).  `off`
is the offset of `str` into `arg`, `n` is `strlen(arg)`, `fuel` is `3 - i`.
Returns the final loop index `i`, the `valid` flag, and the array. -/
def gtIter (arg : List Char) (n : Nat) :
    Nat → Nat → Nat → Bool → (Fin 3 → Rat) → Nat × Bool × (Fin 3 → Rat)
  | 0, i, _, valid, th => (i, valid, th)
  | fuel + 1, i, off, valid, th =>
    let r := strtod (arg.drop off)
    let th1 := thUpd th i r.1
    if r.2 = 0 then (i, valid, th1)
    else if n ≤ off + r.2 + 1 then (i, true, th1)
    else gtIter arg n fuel (i + 1) (off + r.2 + 1) true th1

/-- The fill loop of `get_threshold` (check_load.c line 98):
`for(n = i; n < 3; n++) th[n] = th[i];`.  For `i ≥ 3` the body never runs. -/
def gtFill (i : Nat) (th : Fin 3 → Rat) : Fin 3 → Rat :=
  if h : i < 3 then fun j => if i ≤ j.val then th ⟨i, h⟩ else th j else th

/-- Embedding of `get_threshold` (check_load.c lines 75-100).  `th` is the
array being written (`wload` or `cload`) as the function receives it;
`none` models the `usage(...)` exit on an empty or non-numeric argument. -/
def get_threshold (arg : List Char) (th : Fin 3 → Rat) : Option (Fin 3 → Rat) :=
  let n := arg.length
  let res := gtIter arg n 3 0 0 false th
  if res.1 = 0 ∧ res.2.1 = false then none
  else if res.1 ≠ 2 then some (gtFill res.1 res.2.2) else some res.2.2

/-- Nagios state codes used by the plugin. -/
def STATE_OK : Nat := 0

/-- Nagios WARNING state code. -/
def STATE_WARNING : Nat := 1

/-- Nagios CRITICAL state code. -/
def STATE_CRITICAL : Nat := 2

/-- Nagios UNKNOWN state code. -/
def STATE_UNKNOWN : Nat := 3

/-- Convenience constructor for a three-element array. -/
def triple (a b c : Rat) : Fin 3 → Rat :=
  fun i => if i.val = 0 then a else if i.val = 1 then b else c

/-- The window labels `nums[3] = {1, 5, 15}` (check_load.c line 63). -/
def nums (i : Fin 3) : Nat :=
  if i.val = 0 then 1 else if i.val = 1 then 5 else 15

/-- Default warning thresholds: `double wload[3] = {0.0, 0.0, 0.0}`
(check_load.c line 66). -/
def wload_default : Fin 3 → Rat := fun _ => 0

/-- Default critical thresholds: `double cload[3] = {0.0, 0.0, 0.0}`
(check_load.c line 67). -/
def cload_default : Fin 3 → Rat := fun _ => 0

/-- The three `die` messages of `validate_arguments`, each tagged with the
window label it names. -/
inductive ValidationError where
  | critNotSpecified (minutes : Nat)
  | warnNotSpecified (minutes : Nat)
  | inconsistency (minutes : Nat)
deriving DecidableEq

/-- The loop of `validate_arguments` (check_load.c lines 299-306).  `some e`
models `die(e.1, ...)`; the check returns normally when the result is
`none`. -/
def validateLoop (wload cload : Fin 3 → Rat) :
    List (Fin 3) → Option (Nat × ValidationError)
  | [] => none
  | i :: rest =>
    if cload i < 0 then some (STATE_UNKNOWN, .critNotSpecified (nums i))
    else if wload i < 0 then some (STATE_UNKNOWN, .warnNotSpecified (nums i))
    else if wload i > cload i then some (STATE_UNKNOWN, .inconsistency (nums i))
    else validateLoop wload cload rest

/-- Embedding of `validate_arguments` (check_load.c lines 292-309):
`some e` is a fatal `die` with exit status `e.1`, `none` is `return OK`. -/
def validate_arguments (wload cload : Fin 3 → Rat) : Option (Nat × ValidationError) :=
  validateLoop wload cload [0, 1, 2]

/-- The threshold-comparison loop of `main` (check_load.c lines 190-204).
`result` enters as the current status; a window above its critical
threshold returns `STATE_CRITICAL` at once (the C `break`), one above only
its warning threshold continues with `STATE_WARNING`. -/
def loadCheckLoop (scaled : Bool) (la scaled_la wload cload : Fin 3 → Rat) :
    Nat → List (Fin 3) → Nat
  | result, [] => result
  | result, i :: rest =>
    if scaled then
      if scaled_la i > cload i then STATE_CRITICAL
      else if scaled_la i > wload i then
        loadCheckLoop scaled la scaled_la wload cload STATE_WARNING rest
      else loadCheckLoop scaled la scaled_la wload cload result rest
    else
      if la i > cload i then STATE_CRITICAL
      else if la i > wload i then
        loadCheckLoop scaled la scaled_la wload cload STATE_WARNING rest
      else loadCheckLoop scaled la scaled_la wload cload result rest

/-- The status computation of `main` (check_load.c lines 169-204): scaled
mode is active when `-r` was given and the CPU count is positive; the
scaled sample is the raw sample divided by the CPU count (otherwise the
`scaled_la` array keeps its `{0,0,0}` initaliser, line 175); the walk
starts from `STATE_OK`. -/
def check_load_status (take_into_account_cpus : Bool) (numcpus : Int)
    (la wload cload : Fin 3 → Rat) : Nat :=
  let is_using_scaled_load_values := take_into_account_cpus && decide (0 < numcpus)
  let scaled_la : Fin 3 → Rat :=
    if is_using_scaled_load_values then fun i => la i / (numcpus : Rat) else fun _ => 0
  loadCheckLoop is_using_scaled_load_values la scaled_la wload cload STATE_OK [0, 1, 2]

/-- The comparison sample the evaluation walk actually inspects: the scaled
values when scaled mode is active, the raw values otherwise. -/
def comparisonSample (take_into_account_cpus : Bool) (numcpus : Int)
    (la : Fin 3 → Rat) : Fin 3 → Rat :=
  if take_into_account_cpus && decide (0 < numcpus) then
    fun i => la i / (numcpus : Rat)
  else la

/-- Outcome of one run of `main` after argument processing: `earlyExit`
means the program exited before printing the status line (no `LOAD ...`
line, no performance data), `reported` means the status line and
performance data were printed and `main` returned the given code. -/
inductive CheckOutcome where
  | earlyExit (code : Nat)
  | reported (code : Nat)
deriving DecidableEq

/-- The body of `main` after option parsing (check_load.c lines 123-220,
excluding the top-process sub-step): `validate_arguments` runs inside
`process_arguments`, before any load retrieval; a successfully retrieved
load sample `la` is then checked for the negative sentinel (lines 159-166,
exit `STATE_UNKNOWN` before the status line is built) and finally
evaluated. -/
def run_check (wload cload : Fin 3 → Rat) (take_into_account_cpus : Bool)
    (numcpus : Int) (la : Fin 3 → Rat) : CheckOutcome :=
  match validate_arguments wload cload with
  | some e => .earlyExit e.1
  | none =>
    if la 0 < 0 ∨ la 1 < 0 ∨ la 2 < 0 then .earlyExit STATE_UNKNOWN
    else .reported (check_load_status take_into_account_cpus numcpus la wload cload)

/-- Embedding of `print_top_consuming_processes` (check_load.c lines
371-391).  `runcmd_ret` is the exit status of the external `PS_COMMAND`,
`chld_out` its output lines, `n_procs_to_show` the configured count.
`procpcpu` models the per-row CPU field read by `cmpstringp` through the
platform macro `PS_FORMAT` (not part of this repository's sources); the
`qsort` of lines 382-384 sorts the rows after the header by that field,
descending.  `Except.error` models the diagnostic-and-`STATE_UNKNOWN`
returns; `Except.ok` carries the lines printed. -/
def print_top_consuming_processes (runcmd_ret : Int) (chld_out : List (List Char))
    (procpcpu : List Char → Rat) (n_procs_to_show : Int) :
    Except Nat (List (List Char)) :=
  if runcmd_ret ≠ 0 then .error STATE_UNKNOWN
  else if chld_out.length < 2 then .error STATE_UNKNOWN
  else
    let sorted :=
      match chld_out with
      | [] => []
      | h :: t => h :: t.insertionSort (fun a b => procpcpu b ≤ procpcpu a)
    let lines_to_show := min chld_out.length (n_procs_to_show + 1).toNat
    .ok (sorted.take lines_to_show)

/-- The tail of `main` (check_load.c lines 206-220) together with the
primary outcome: the status line is printed, then, only when
`n_procs_to_show > 0`, the top-process sub-step runs; its return value is
discarded and `main` returns `result` from the load evaluation. -/
def check_load_main (wload cload : Fin 3 → Rat) (take_into_account_cpus : Bool)
    (numcpus : Int) (la : Fin 3 → Rat) (n_procs_to_show : Int) (runcmd_ret : Int)
    (chld_out : List (List Char)) (procpcpu : List Char → Rat) :
    CheckOutcome × Option (Except Nat (List (List Char))) :=
  match run_check wload cload take_into_account_cpus numcpus la with
  | .earlyExit s => (.earlyExit s, none)
  | .reported r =>
    (.reported r,
      if 0 < n_procs_to_show then
        some (print_top_consuming_processes runcmd_ret chld_out procpcpu n_procs_to_show)
      else none)

/-- The positional-argument handling of `process_arguments` (check_load.c
lines 274-288).  `c` is `optind` after the `getopt_long` loop; `argv` gives
the argument strings.  Returns the final `(wload, cload)` pair, or `none`
when a `get_threshold` call dies.  The C conditions compare `c - argc`
(not `argc - c`) with 2 and 1, exactly as written in the source. -/
def process_positional (argc c : Int) (argv : Int → List Char)
    (wload cload : Fin 3 → Rat) : Option ((Fin 3 → Rat) × (Fin 3 → Rat)) :=
  if c = argc then some (wload, cload)
  else if c - argc = 2 then
    match get_threshold (argv c) wload with
    | none => none
    | some w =>
      match get_threshold (argv (c + 1)) cload with
      | none => none
      | some cl => some (w, cl)
  else if c - argc = 1 then
    match get_threshold (argv c) cload with
    | none => none
    | some cl => some (wload, cl)
  else some (wload, cload)

/-! Supporting lemmas about `takeWhile`/`dropWhile` on appended lists. -/

theorem takeWhile_append_of_dropWhile_nil {p : Char → Bool} {a : List Char}
    (b : List Char) (h : a.dropWhile p = []) :
    (a ++ b).takeWhile p = a ++ b.takeWhile p := by
  induction a with
  | nil => simp
  | cons c t ih =>
    by_cases hc : p c
    · simp only [List.dropWhile_cons, hc, if_true] at h
      simp [List.takeWhile_cons, hc, ih h]
    · simp [List.dropWhile_cons, hc] at h

theorem dropWhile_append_of_dropWhile_nil {p : Char → Bool} {a : List Char}
    (b : List Char) (h : a.dropWhile p = []) :
    (a ++ b).dropWhile p = b.dropWhile p := by
  induction a with
  | nil => simp
  | cons c t ih =>
    by_cases hc : p c
    · simp only [List.dropWhile_cons, hc, if_true] at h
      simp [List.dropWhile_cons, hc, ih h]
    · simp [List.dropWhile_cons, hc] at h

theorem takeWhile_append_of_dropWhile_ne_nil {p : Char → Bool} {a : List Char}
    (b : List Char) (h : a.dropWhile p ≠ []) :
    (a ++ b).takeWhile p = a.takeWhile p := by
  induction a with
  | nil => simp at h
  | cons c t ih =>
    by_cases hc : p c
    · simp only [List.dropWhile_cons, hc, if_true] at h
      simp [List.takeWhile_cons, hc, ih h]
    · simp [List.takeWhile_cons, hc]

theorem dropWhile_append_of_dropWhile_ne_nil {p : Char → Bool} {a : List Char}
    (b : List Char) (h : a.dropWhile p ≠ []) :
    (a ++ b).dropWhile p = a.dropWhile p ++ b := by
  induction a with
  | nil => simp at h
  | cons c t ih =>
    by_cases hc : p c
    · simp only [List.dropWhile_cons, hc, if_true] at h
      simp [List.dropWhile_cons, hc, ih h]
    · simp [List.dropWhile_cons, hc]

theorem takeWhile_length_add_dropWhile_length (p : Char → Bool) (l : List Char) :
    (l.takeWhile p).length + (l.dropWhile p).length = l.length := by
  rw [← List.length_append, List.takeWhile_append_dropWhile]

/-! Lemmas relating `strtod` on a numeral to `strtod` on that numeral
followed by a comma and further text. -/

theorem strtodSign_append (s1 b : List Char) (h : s1 ≠ []) :
    strtodSign (s1 ++ b) =
      ((strtodSign s1).1, (strtodSign s1).2.1, (strtodSign s1).2.2 ++ b) := by
  match s1 with
  | [] => exact absurd rfl h
  | c :: t =>
    by_cases hm : c = '-'
    · simp [strtodSign, hm]
    · by_cases hp : c = '+' <;> simp [strtodSign, hm, hp]

theorem strtodSign_length (s : List Char) :
    s.length = (strtodSign s).2.1 + (strtodSign s).2.2.length := by
  match s with
  | [] => simp [strtodSign]
  | c :: t =>
    by_cases hm : c = '-'
    · simp [strtodSign, hm]
      try omega
    · by_cases hp : c = '+'
      · simp [strtodSign, hm, hp]
        try omega
      · simp [strtodSign, hm, hp]
        try omega

theorem strtodNum_append (s2 r : List Char) (hok : (strtodNum s2).2.2 = true)
    (hlen : (strtodNum s2).2.1 = s2.length) :
    strtodNum (s2 ++ ',' :: r) = strtodNum s2 := by
  have hsplit : s2.takeWhile isDigitChar ++ s2.dropWhile isDigitChar = s2 :=
    List.takeWhile_append_dropWhile isDigitChar s2
  have hlensplit := takeWhile_length_add_dropWhile_length isDigitChar s2
  have hcomma : isDigitChar ',' = false := rfl
  match hs3 : s2.dropWhile isDigitChar with
  | [] =>
    have hip : s2.takeWhile isDigitChar = s2 := by
      rw [hs3, List.append_nil] at hsplit; exact hsplit
    have htw : (s2 ++ ',' :: r).takeWhile isDigitChar = s2 := by
      rw [takeWhile_append_of_dropWhile_nil _ hs3, List.takeWhile_cons, hcomma]
      simp [hip]
    have hdw : (s2 ++ ',' :: r).dropWhile isDigitChar = ',' :: r := by
      rw [dropWhile_append_of_dropWhile_nil _ hs3, List.dropWhile_cons, hcomma]
      simp
    have hipnz : ¬ s2.length = 0 := by
      intro h0
      rw [strtodNum] at hok
      simp only [hs3, hip, h0] at hok
      simp at hok
    simp only [strtodNum, htw, hdw, hip, hs3]
    simp [hipnz]
  | c :: t =>
    have hne : s2.dropWhile isDigitChar ≠ [] := by rw [hs3]; simp
    have htw : (s2 ++ ',' :: r).takeWhile isDigitChar = s2.takeWhile isDigitChar :=
      takeWhile_append_of_dropWhile_ne_nil _ hne
    have hdw : (s2 ++ ',' :: r).dropWhile isDigitChar = c :: (t ++ ',' :: r) := by
      rw [dropWhile_append_of_dropWhile_ne_nil _ hne, hs3]; rfl
    by_cases hdot : c = '.'
    · subst hdot
      have htsplit : t.takeWhile isDigitChar ++ t.dropWhile isDigitChar = t :=
        List.takeWhile_append_dropWhile isDigitChar t
      have htlen := takeWhile_length_add_dropWhile_length isDigitChar t
      rw [strtodNum] at hlen hok
      simp only [hs3, List.head?_cons, List.tail_cons, eq_self_iff_true,
        if_true] at hlen hok
      by_cases h0 :
          (s2.takeWhile isDigitChar).length + (t.takeWhile isDigitChar).length = 0
      · rw [if_pos h0] at hok; simp at hok
      · rw [if_neg h0] at hlen
        have hlen' : (s2.takeWhile isDigitChar).length + 1 +
            (t.takeWhile isDigitChar).length = s2.length := hlen
        rw [hs3] at hlensplit
        simp only [List.length_cons] at hlensplit
        have hdwt : t.dropWhile isDigitChar = [] := by
          apply List.length_eq_zero.mp
          omega
        have hfp : t.takeWhile isDigitChar = t := by
          rw [hdwt, List.append_nil] at htsplit; exact htsplit
        have hfp' : (t ++ ',' :: r).takeWhile isDigitChar = t := by
          rw [takeWhile_append_of_dropWhile_nil _ hdwt, List.takeWhile_cons, hcomma]
          simp [hfp]
        simp only [strtodNum, htw, hdw, hs3, List.head?_cons, List.tail_cons,
          if_pos rfl, hfp, hfp']
    · exfalso
      rw [strtodNum] at hlen hok
      have hnd : ¬ ((c :: t : List Char).head? = some '.') := by
        simp [hdot]
      simp only [hs3, if_neg hnd] at hlen hok
      by_cases h0 : (s2.takeWhile isDigitChar).length = 0
      · rw [if_pos h0] at hok; simp at hok
      · rw [if_neg h0] at hlen
        have hlen' : (s2.takeWhile isDigitChar).length = s2.length := hlen
        rw [hs3] at hlensplit
        simp only [List.length_cons] at hlensplit
        omega

theorem numeral_components (x : List Char) (h : Numeral x) :
    (strtodNum (strtodSign (x.dropWhile isSpaceChar)).2.2).2.2 = true ∧
    (strtodNum (strtodSign (x.dropWhile isSpaceChar)).2.2).2.1 =
      (strtodSign (x.dropWhile isSpaceChar)).2.2.length ∧
    x.dropWhile isSpaceChar ≠ [] := by
  obtain ⟨h1, h2⟩ := h
  simp only [strtod] at h1
  by_cases hok : (strtodNum (strtodSign (x.dropWhile isSpaceChar)).2.2).2.2 = true
  · rw [if_pos hok] at h1
    have h1' : (x.takeWhile isSpaceChar).length
        + (strtodSign (x.dropWhile isSpaceChar)).2.1
        + (strtodNum (strtodSign (x.dropWhile isSpaceChar)).2.2).2.1 = x.length := h1
    have hx := takeWhile_length_add_dropWhile_length isSpaceChar x
    have hsg := strtodSign_length (x.dropWhile isSpaceChar)
    refine ⟨hok, by omega, ?_⟩
    intro hnil
    rw [hnil] at hok
    have hval : (strtodNum (strtodSign ([] : List Char)).2.2).2.2 = false := rfl
    rw [hval] at hok
    cases hok
  · rw [if_neg hok] at h1
    have h1' : (0 : Nat) = x.length := h1
    omega

theorem strtod_append_comma (x r : List Char) (h : Numeral x) :
    strtod (x ++ ',' :: r) = ((strtod x).1, x.length) := by
  obtain ⟨hok, hlen, hne⟩ := numeral_components x h
  have htw : (x ++ ',' :: r).takeWhile isSpaceChar = x.takeWhile isSpaceChar :=
    takeWhile_append_of_dropWhile_ne_nil _ hne
  have hdw : (x ++ ',' :: r).dropWhile isSpaceChar
      = x.dropWhile isSpaceChar ++ ',' :: r :=
    dropWhile_append_of_dropWhile_ne_nil _ hne
  have hsg := strtodSign_append (x.dropWhile isSpaceChar) (',' :: r) hne
  have hnm := strtodNum_append (strtodSign (x.dropWhile isSpaceChar)).2.2 r hok hlen
  have hrhs : strtod x =
      (if (strtodSign (x.dropWhile isSpaceChar)).1 then
          -(strtodNum (strtodSign (x.dropWhile isSpaceChar)).2.2).1
        else (strtodNum (strtodSign (x.dropWhile isSpaceChar)).2.2).1,
        (x.takeWhile isSpaceChar).length + (strtodSign (x.dropWhile isSpaceChar)).2.1
          + (strtodNum (strtodSign (x.dropWhile isSpaceChar)).2.2).2.1) := by
    simp only [strtod]
    rw [if_pos hok]
  have hlhs : strtod (x ++ ',' :: r) =
      (if (strtodSign (x.dropWhile isSpaceChar)).1 then
          -(strtodNum (strtodSign (x.dropWhile isSpaceChar)).2.2).1
        else (strtodNum (strtodSign (x.dropWhile isSpaceChar)).2.2).1,
        (x.takeWhile isSpaceChar).length + (strtodSign (x.dropWhile isSpaceChar)).2.1
          + (strtodNum (strtodSign (x.dropWhile isSpaceChar)).2.2).2.1) := by
    simp only [strtod, htw, hdw, hsg, hnm]
    rw [if_pos hok]
  have hx1 := h.1
  rw [hrhs] at hx1
  have hx1' : (x.takeWhile isSpaceChar).length
      + (strtodSign (x.dropWhile isSpaceChar)).2.1
      + (strtodNum (strtodSign (x.dropWhile isSpaceChar)).2.2).2.1 = x.length := hx1
  rw [hlhs, hrhs]
  simp only [Prod.mk.injEq]
  exact ⟨trivial, hx1'⟩

theorem drop_past_comma (x y : List Char) :
    (x ++ ',' :: y).drop (x.length + 1) = y := by
  induction x with
  | nil => simp
  | cons c t ih => simp only [List.length_cons, List.cons_append, List.drop_succ_cons]; exact ih

theorem strtod_of_numeral (x : List Char) (h : Numeral x) :
    strtod x = (numVal x, x.length) := by
  have hpair : strtod x = ((strtod x).1, (strtod x).2) := rfl
  rw [hpair, h.1]
  rfl

theorem get_threshold_single (x : List Char) (th : Fin 3 → Rat) (hx : Numeral x) :
    (get_threshold x th).map (fun t => (t 0, t 1, t 2))
      = some (numVal x, numVal x, numVal x) := by
  have hs : strtod (x.drop 0) = (numVal x, x.length) := by
    rw [List.drop_zero]; exact strtod_of_numeral x hx
  have hnz : ¬ x.length = 0 := by have := hx.2; omega
  have hle : x.length ≤ 0 + x.length + 1 := by omega
  have hiter : gtIter x x.length 3 0 0 false th = (0, true, thUpd th 0 (numVal x)) := by
    simp only [gtIter, hs, hnz, hle, if_false, if_true, Nat.zero_add]
    try simp
  simp only [get_threshold, hiter]
  simp [gtFill, thUpd]

theorem get_threshold_pair (x y : List Char) (th : Fin 3 → Rat)
    (hx : Numeral x) (hy : Numeral y) :
    (get_threshold (x ++ ',' :: y) th).map (fun t => (t 0, t 1, t 2))
      = some (numVal x, numVal y, numVal y) := by
  have hn : (x ++ ',' :: y).length = x.length + 1 + y.length := by
    simp only [List.length_append, List.length_cons]
    omega
  have hs0 : strtod ((x ++ ',' :: y).drop 0) = (numVal x, x.length) := by
    rw [List.drop_zero]
    exact strtod_append_comma x y hx
  have hxnz : ¬ x.length = 0 := by have := hx.2; omega
  have hc2 : ¬ ((x ++ ',' :: y).length ≤ 0 + x.length + 1) := by
    rw [hn]; have := hy.2; omega
  have hs1 : strtod ((x ++ ',' :: y).drop (0 + x.length + 1)) = (numVal y, y.length) := by
    rw [Nat.zero_add, drop_past_comma]
    exact strtod_of_numeral y hy
  have hynz : ¬ y.length = 0 := by have := hy.2; omega
  have hc3 : (x ++ ',' :: y).length ≤ 0 + x.length + 1 + y.length + 1 := by
    rw [hn]; omega
  have hiter : gtIter (x ++ ',' :: y) (x ++ ',' :: y).length 3 0 0 false th
      = (1, true, thUpd (thUpd th 0 (numVal x)) 1 (numVal y)) := by
    simp only [gtIter, hs0, hs1, hxnz, hynz, hc2, hc3, if_false, if_true]
    try simp
  simp only [get_threshold, hiter]
  simp [gtFill, thUpd]

theorem get_threshold_three (x y z : List Char) (th : Fin 3 → Rat)
    (hx : Numeral x) (hy : Numeral y) (hz : Numeral z) :
    (get_threshold (x ++ ',' :: (y ++ ',' :: z)) th).map (fun t => (t 0, t 1, t 2))
      = some (numVal x, numVal y, numVal z) := by
  have hn : (x ++ ',' :: (y ++ ',' :: z)).length
      = x.length + 1 + y.length + 1 + z.length := by
    simp only [List.length_append, List.length_cons]
    omega
  have hs0 : strtod ((x ++ ',' :: (y ++ ',' :: z)).drop 0)
      = (numVal x, x.length) := by
    rw [List.drop_zero]
    exact strtod_append_comma x (y ++ ',' :: z) hx
  have hxnz : ¬ x.length = 0 := by have := hx.2; omega
  have hc2 : ¬ ((x ++ ',' :: (y ++ ',' :: z)).length ≤ 0 + x.length + 1) := by
    rw [hn]; have := hy.2; omega
  have hdrop1 : (x ++ ',' :: (y ++ ',' :: z)).drop (0 + x.length + 1)
      = y ++ ',' :: z := by
    rw [Nat.zero_add]
    exact drop_past_comma x (y ++ ',' :: z)
  have hs1 : strtod ((x ++ ',' :: (y ++ ',' :: z)).drop (0 + x.length + 1))
      = (numVal y, y.length) := by
    rw [hdrop1]
    exact strtod_append_comma y z hy
  have hynz : ¬ y.length = 0 := by have := hy.2; omega
  have hc3 : ¬ ((x ++ ',' :: (y ++ ',' :: z)).length
      ≤ 0 + x.length + 1 + y.length + 1) := by
    rw [hn]; have := hz.2; omega
  have hdrop2 : (x ++ ',' :: (y ++ ',' :: z)).drop (0 + x.length + 1 + y.length + 1)
      = z := by
    have hsplit : 0 + x.length + 1 + y.length + 1 = (x.length + 1) + (y.length + 1) := by
      omega
    rw [hsplit, ← List.drop_drop, drop_past_comma, drop_past_comma]
  have hs2 : strtod ((x ++ ',' :: (y ++ ',' :: z)).drop (0 + x.length + 1 + y.length + 1))
      = (numVal z, z.length) := by
    rw [hdrop2]
    exact strtod_of_numeral z hz
  have hznz : ¬ z.length = 0 := by have := hz.2; omega
  have hc4 : (x ++ ',' :: (y ++ ',' :: z)).length
      ≤ 0 + x.length + 1 + y.length + 1 + z.length + 1 := by
    rw [hn]; omega
  have hiter : gtIter (x ++ ',' :: (y ++ ',' :: z)) (x ++ ',' :: (y ++ ',' :: z)).length
      3 0 0 false th
      = (2, true, thUpd (thUpd (thUpd th 0 (numVal x)) 1 (numVal y)) 2 (numVal z)) := by
    simp only [gtIter, hs0, hs1, hs2, hxnz, hynz, hznz, hc2, hc3, hc4,
      if_false, if_true]
    try simp
  simp only [get_threshold, hiter]
  simp [gtFill, thUpd]

theorem get_threshold_fail (s : List Char) (th : Fin 3 → Rat)
    (h : (strtod s).2 = 0) : get_threshold s th = none := by
  have hs : strtod (s.drop 0) = ((strtod s).1, 0) := by
    rw [List.drop_zero]
    have hpair : strtod s = ((strtod s).1, (strtod s).2) := rfl
    rw [hpair, h]
  simp only [get_threshold, gtIter, hs]
  simp

theorem mem_fin3 (i : Fin 3) : i ∈ ([0, 1, 2] : List (Fin 3)) := by
  fin_cases i <;> simp

theorem exists_mem_fin3 (P : Fin 3 → Prop) :
    (∃ i ∈ ([0, 1, 2] : List (Fin 3)), P i) ↔ ∃ i, P i := by
  constructor
  · rintro ⟨i, _, h⟩
    exact ⟨i, h⟩
  · rintro ⟨i, h⟩
    exact ⟨i, mem_fin3 i, h⟩

theorem loadCheckLoop_false_spec (la sla w c : Fin 3 → Rat) (l : List (Fin 3))
    (r : Nat) :
    loadCheckLoop false la sla w c r l =
      if ∃ i ∈ l, la i > c i then STATE_CRITICAL
      else if ∃ i ∈ l, la i > w i then STATE_WARNING
      else r := by
  induction l generalizing r with
  | nil => simp [loadCheckLoop]
  | cons i rest ih =>
    simp only [loadCheckLoop, Bool.false_eq_true, if_false]
    by_cases hc : la i > c i
    · rw [if_pos hc, if_pos ⟨i, List.mem_cons_self i rest, hc⟩]
    · rw [if_neg hc]
      have hcons : (∃ j ∈ i :: rest, la j > c j) ↔ (∃ j ∈ rest, la j > c j) := by
        constructor
        · rintro ⟨j, hj, hgt⟩
          rcases List.mem_cons.mp hj with h | h
          · exact absurd (h ▸ hgt) hc
          · exact ⟨j, h, hgt⟩
        · rintro ⟨j, hj, hgt⟩
          exact ⟨j, List.mem_cons_of_mem _ hj, hgt⟩
      by_cases hw : la i > w i
      · rw [if_pos hw, ih]
        have hwc : ∃ j ∈ i :: rest, la j > w j := ⟨i, List.mem_cons_self i rest, hw⟩
        by_cases hcr : ∃ j ∈ rest, la j > c j
        · simp [hcons, hwc, hcr, hc, hw]
        · simp [hcons, hwc, hcr, hc, hw]
      · have hwcons : (∃ j ∈ i :: rest, la j > w j) ↔ (∃ j ∈ rest, la j > w j) := by
          constructor
          · rintro ⟨j, hj, hgt⟩
            rcases List.mem_cons.mp hj with h | h
            · exact absurd (h ▸ hgt) hw
            · exact ⟨j, h, hgt⟩
          · rintro ⟨j, hj, hgt⟩
            exact ⟨j, List.mem_cons_of_mem _ hj, hgt⟩
        rw [if_neg hw, ih]
        simp only [hcons, hwcons]

theorem loadCheckLoop_true_spec (la sla w c : Fin 3 → Rat) (l : List (Fin 3))
    (r : Nat) :
    loadCheckLoop true la sla w c r l =
      if ∃ i ∈ l, sla i > c i then STATE_CRITICAL
      else if ∃ i ∈ l, sla i > w i then STATE_WARNING
      else r := by
  induction l generalizing r with
  | nil => simp [loadCheckLoop]
  | cons i rest ih =>
    simp only [loadCheckLoop, if_true]
    by_cases hc : sla i > c i
    · rw [if_pos hc, if_pos ⟨i, List.mem_cons_self i rest, hc⟩]
    · rw [if_neg hc]
      have hcons : (∃ j ∈ i :: rest, sla j > c j) ↔ (∃ j ∈ rest, sla j > c j) := by
        constructor
        · rintro ⟨j, hj, hgt⟩
          rcases List.mem_cons.mp hj with h | h
          · exact absurd (h ▸ hgt) hc
          · exact ⟨j, h, hgt⟩
        · rintro ⟨j, hj, hgt⟩
          exact ⟨j, List.mem_cons_of_mem _ hj, hgt⟩
      by_cases hw : sla i > w i
      · rw [if_pos hw, ih]
        have hwc : ∃ j ∈ i :: rest, sla j > w j := ⟨i, List.mem_cons_self i rest, hw⟩
        by_cases hcr : ∃ j ∈ rest, sla j > c j
        · simp [hcons, hwc, hcr, hc, hw]
        · simp [hcons, hwc, hcr, hc, hw]
      · have hwcons : (∃ j ∈ i :: rest, sla j > w j) ↔ (∃ j ∈ rest, sla j > w j) := by
          constructor
          · rintro ⟨j, hj, hgt⟩
            rcases List.mem_cons.mp hj with h | h
            · exact absurd (h ▸ hgt) hw
            · exact ⟨j, h, hgt⟩
          · rintro ⟨j, hj, hgt⟩
            exact ⟨j, List.mem_cons_of_mem _ hj, hgt⟩
        rw [if_neg hw, ih]
        simp only [hcons, hwcons]

theorem check_load_status_eq (tia : Bool) (ncpus : Int) (la w c : Fin 3 → Rat) :
    check_load_status tia ncpus la w c =
      if ∃ i, comparisonSample tia ncpus la i > c i then STATE_CRITICAL
      else if ∃ i, comparisonSample tia ncpus la i > w i then STATE_WARNING
      else STATE_OK := by
  simp only [check_load_status, comparisonSample]
  by_cases hflag : (tia && decide (0 < ncpus)) = true
  · simp only [hflag, eq_self_iff_true, if_true]
    rw [loadCheckLoop_true_spec]
    simp only [exists_mem_fin3]
  · have hflag' : (tia && decide (0 < ncpus)) = false := by
      revert hflag
      cases (tia && decide (0 < ncpus)) <;> simp
    simp only [hflag', Bool.false_eq_true, if_false]
    rw [loadCheckLoop_false_spec]
    simp only [exists_mem_fin3]

theorem validateLoop_some_code (w c : Fin 3 → Rat) (l : List (Fin 3))
    (e : Nat × ValidationError) (h : validateLoop w c l = some e) :
    e.1 = STATE_UNKNOWN := by
  induction l with
  | nil => simp [validateLoop] at h
  | cons i rest ih =>
    simp only [validateLoop] at h
    by_cases h1 : c i < 0
    · rw [if_pos h1] at h
      injection h with h'
      rw [← h']
    · rw [if_neg h1] at h
      by_cases h2 : w i < 0
      · rw [if_pos h2] at h
        injection h with h'
        rw [← h']
      · rw [if_neg h2] at h
        by_cases h3 : w i > c i
        · rw [if_pos h3] at h
          injection h with h'
          rw [← h']
        · rw [if_neg h3] at h
          exact ih h

theorem validateLoop_ok_iff (w c : Fin 3 → Rat) (l : List (Fin 3)) :
    validateLoop w c l = none ↔
      ∀ i ∈ l, 0 ≤ c i ∧ 0 ≤ w i ∧ w i ≤ c i := by
  induction l with
  | nil => simp [validateLoop]
  | cons i rest ih =>
    simp only [validateLoop]
    by_cases h1 : c i < 0
    · have h1' : ¬ 0 ≤ c i := not_le.mpr h1
      simp [h1, h1']
    · have h1' : 0 ≤ c i := not_lt.mp h1
      by_cases h2 : w i < 0
      · have h2' : ¬ 0 ≤ w i := not_le.mpr h2
        simp [h1, h2, h1', h2']
      · have h2' : 0 ≤ w i := not_lt.mp h2
        by_cases h3 : w i > c i
        · have h3' : ¬ w i ≤ c i := not_le.mpr h3
          simp [h1, h2, h3, h1', h2', h3']
        · have h3' : w i ≤ c i := not_lt.mp h3
          simp [h1, h2, h3, h1', h2', h3', ih]

theorem validate_arguments_some_code (w c : Fin 3 → Rat) (e : Nat × ValidationError)
    (h : validate_arguments w c = some e) : e.1 = STATE_UNKNOWN :=
  validateLoop_some_code w c _ e h

theorem validate_arguments_ok_iff (w c : Fin 3 → Rat) :
    validate_arguments w c = none ↔
      ∀ i, 0 ≤ c i ∧ 0 ≤ w i ∧ w i ≤ c i := by
  rw [validate_arguments, validateLoop_ok_iff]
  constructor
  · intro h i
    exact h i (mem_fin3 i)
  · intro h i _
    exact h i

/-- C1: the evaluation walk over the selected comparison sample (scaled
values in scaled mode, raw values otherwise) yields CRITICAL exactly when
some window strictly exceeds its critical threshold, WARNING exactly when
no window exceeds critical but some window strictly exceeds its warning
threshold, and OK otherwise; equality with a threshold never escalates. -/
theorem claim_C1_escalation (tia : Bool) (ncpus : Int) (la w c : Fin 3 → Rat)
    (hla : ∀ i, 0 ≤ la i) :
    (check_load_status tia ncpus la w c = STATE_CRITICAL ↔
      ∃ i, comparisonSample tia ncpus la i > c i) ∧
    (check_load_status tia ncpus la w c = STATE_WARNING ↔
      (¬ ∃ i, comparisonSample tia ncpus la i > c i) ∧
        ∃ i, comparisonSample tia ncpus la i > w i) ∧
    (check_load_status tia ncpus la w c = STATE_OK ↔
      (¬ ∃ i, comparisonSample tia ncpus la i > c i) ∧
        ¬ ∃ i, comparisonSample tia ncpus la i > w i) := by
  rw [check_load_status_eq]
  by_cases h1 : ∃ i, comparisonSample tia ncpus la i > c i
  · simp [h1, STATE_CRITICAL, STATE_WARNING, STATE_OK]
  · by_cases h2 : ∃ i, comparisonSample tia ncpus la i > w i
    · simp [h1, h2, STATE_CRITICAL, STATE_WARNING, STATE_OK]
    · simp [h1, h2, STATE_CRITICAL, STATE_WARNING, STATE_OK]

/-- Witness for C1: the spec example load = (2.5, 2.0, 1.5) against
warn = (1,1,1), crit = (2,2,2), unscaled, yields CRITICAL. -/
theorem claim_C1_witness :
    check_load_status false 0 (triple (mkRat 5 2) 2 (mkRat 3 2)) (triple 1 1 1)
      (triple 2 2 2) = STATE_CRITICAL := by
  have h := claim_C1_escalation false 0 (triple (mkRat 5 2) 2 (mkRat 3 2))
    (triple 1 1 1) (triple 2 2 2) (by decide)
  exact h.1.mpr ⟨0, by decide⟩

/-- C2: get_threshold broadcasts one, two, or three comma-separated
numerals to a triplet — parse "x" gives (x,x,x), parse "x,y" gives
(x,y,y), parse "x,y,z" gives (x,y,z) — and dies via usage (modelled as
none) on the empty string and on any string whose first field has no
parseable number. -/
theorem claim_C2_threshold_parse :
    (∀ x th, Numeral x →
        (get_threshold x th).map (fun t => (t 0, t 1, t 2))
          = some (numVal x, numVal x, numVal x)) ∧
    (∀ x y th, Numeral x → Numeral y →
        (get_threshold (x ++ ',' :: y) th).map (fun t => (t 0, t 1, t 2))
          = some (numVal x, numVal y, numVal y)) ∧
    (∀ x y z th, Numeral x → Numeral y → Numeral z →
        (get_threshold (x ++ ',' :: (y ++ ',' :: z)) th).map (fun t => (t 0, t 1, t 2))
          = some (numVal x, numVal y, numVal z)) ∧
    (∀ th, get_threshold [] th = none) ∧
    (∀ s th, (strtod s).2 = 0 → get_threshold s th = none) := by
  refine ⟨?_, ?_, ?_, ?_, ?_⟩
  · intro x th hx
    exact get_threshold_single x th hx
  · intro x y th hx hy
    exact get_threshold_pair x y th hx hy
  · intro x y z th hx hy hz
    exact get_threshold_three x y z th hx hy hz
  · intro th
    exact get_threshold_fail [] th rfl
  · intro s th h
    exact get_threshold_fail s th h

/-- Witness for C2 at the concrete argument "0.7,0.6". -/
theorem claim_C2_witness :
    Numeral ("0.7".data) ∧ Numeral ("0.6".data) ∧
    (get_threshold ("0.7,0.6".data) wload_default).map (fun t => (t 0, t 1, t 2))
      = some (numVal ("0.7".data), numVal ("0.6".data), numVal ("0.6".data)) := by
  refine ⟨by decide, by decide, ?_⟩
  have he : ("0.7,0.6".data) = ("0.7".data) ++ ',' :: ("0.6".data) := by decide
  rw [he]
  exact claim_C2_threshold_parse.2.1 ("0.7".data) ("0.6".data) wload_default
    (by decide) (by decide)

/-- C3 (divergence): when parsing stops at a failing field, the fill uses
th[i], which the failed strtod call has just set to 0.0 — so
get_threshold("1,abc") yields (1, 0, 0), not (1, 1, 1) as the spec's
fill-with-last-parsed-value rule and the code's own comment dictate. -/
theorem claim_C3_fill_zero :
    (get_threshold ("1,abc".data) wload_default).map (fun t => (t 0, t 1, t 2))
      = some (1, 0, 0) ∧
    (get_threshold ("1,2,abc".data) wload_default).map (fun t => (t 0, t 1, t 2))
      = some (1, 2, 0) := by
  exact ⟨by decide, by decide⟩

/-- C4 (counterexample): with both threshold triplets left entirely
unspecified — the 0.0 defaults of lines 66-67 — validation passes and the
program does not exit before load retrieval; it evaluates the load and
reports, contradicting the claim that an unspecified triplet is fatal. -/
theorem claim_C4_counterexample :
    validate_arguments wload_default cload_default = none ∧
    run_check wload_default cload_default false 1 (triple 1 1 1)
      = CheckOutcome.reported STATE_CRITICAL := by
  exact ⟨by decide, by decide⟩

/-- C4 (amended): threshold validation runs before any load retrieval and
is terminal-fatal with exit status UNKNOWN when warn[i] > crit[i] for any
single window i, and when any threshold value is negative; whenever
validation dies, the outcome is an early UNKNOWN exit independent of the
load sample.  (Triplets left entirely unspecified default to 0.0 and pass
validation.) -/
theorem claim_C4_validation (w c : Fin 3 → Rat) :
    ((∃ i, w i > c i) → ∃ e, validate_arguments w c = some (STATE_UNKNOWN, e)) ∧
    ((∃ i, c i < 0 ∨ w i < 0) → ∃ e, validate_arguments w c = some (STATE_UNKNOWN, e)) ∧
    (∀ e, validate_arguments w c = some e →
      ∀ (tia : Bool) (ncpus : Int) (la : Fin 3 → Rat),
        run_check w c tia ncpus la = CheckOutcome.earlyExit STATE_UNKNOWN) := by
  have herr : ¬ validate_arguments w c = none →
      ∃ e, validate_arguments w c = some (STATE_UNKNOWN, e) := by
    intro hno
    rcases hv : validate_arguments w c with _ | e
    · exact absurd hv hno
    · have hcode := validate_arguments_some_code w c e hv
      refine ⟨e.2, ?_⟩
      rw [← hcode]
  refine ⟨?_, ?_, ?_⟩
  · intro hex
    apply herr
    intro hnone
    rw [validate_arguments_ok_iff] at hnone
    obtain ⟨i, hi⟩ := hex
    exact absurd (hnone i).2.2 (not_le.mpr hi)
  · intro hex
    apply herr
    intro hnone
    rw [validate_arguments_ok_iff] at hnone
    obtain ⟨i, hi⟩ := hex
    rcases hi with hi | hi
    · exact absurd (hnone i).1 (not_le.mpr hi)
    · exact absurd (hnone i).2.1 (not_le.mpr hi)
  · intro e hv tia ncpus la
    simp only [run_check, hv]
    rw [validate_arguments_some_code w c e hv]

/-- Witness for C4 at warn = (2,2,2), crit = (1,1,1). -/
theorem claim_C4_witness :
    (∃ e, validate_arguments (triple 2 2 2) (triple 1 1 1)
        = some (STATE_UNKNOWN, e)) ∧
    run_check (triple 2 2 2) (triple 1 1 1) false 1 (triple 1 1 1)
      = CheckOutcome.earlyExit STATE_UNKNOWN := by
  obtain ⟨e, he⟩ :=
    (claim_C4_validation (triple 2 2 2) (triple 1 1 1)).1 ⟨0, by decide⟩
  exact ⟨⟨e, he⟩, (claim_C4_validation (triple 2 2 2) (triple 1 1 1)).2.2
    (STATE_UNKNOWN, e) he false 1 (triple 1 1 1)⟩

/-- C5 (divergence): the positional-argument branches compare c - argc
(with c = optind ≤ argc) against 2 and 1, so they can never fire; trailing
positional threshold arguments are silently ignored and both threshold
arrays keep their previous values, contradicting the claim that they are
parsed as warning/critical triplets. -/
theorem claim_C5_positional_ignored (argc c : Int) (argv : Int → List Char)
    (w cl : Fin 3 → Rat) (h : c < argc) :
    process_positional argc c argv w cl = some (w, cl) := by
  rw [process_positional]
  rw [if_neg (by omega : ¬ c = argc), if_neg (by omega : ¬ c - argc = 2),
    if_neg (by omega : ¬ c - argc = 1)]

/-- Witness for C5: two positional arguments "1,2,3" and "4,5,6"
(argc = 3, optind = 1) leave both threshold arrays at their defaults. -/
theorem claim_C5_witness :
    process_positional 3 1
      (fun i => if i = 1 then ("1,2,3".data) else ("4,5,6".data))
      wload_default cload_default = some (wload_default, cload_default) :=
  claim_C5_positional_ignored 3 1
    (fun i => if i = 1 then ("1,2,3".data) else ("4,5,6".data))
    wload_default cload_default (by decide)

/-- C6: under warn ≤ crit pointwise, the status is monotone in the load
sample — raising any load value (same thresholds, CPU count and scaling
mode) never lowers the status in the order OK < WARNING < CRITICAL. -/
theorem claim_C6_monotone (tia : Bool) (ncpus : Int) (la la' w c : Fin 3 → Rat)
    (hwc : ∀ i, w i ≤ c i) (hmono : ∀ i, la i ≤ la' i) :
    check_load_status tia ncpus la w c ≤ check_load_status tia ncpus la' w c := by
  have hcomp : ∀ i, comparisonSample tia ncpus la i
      ≤ comparisonSample tia ncpus la' i := by
    intro i
    simp only [comparisonSample]
    by_cases hflag : (tia && decide (0 < ncpus)) = true
    · simp only [hflag, eq_self_iff_true, if_true]
      have hpos : (0 : Rat) < (ncpus : Rat) := by
        rw [Bool.and_eq_true] at hflag
        exact_mod_cast of_decide_eq_true hflag.2
      exact (div_le_div_iff_of_pos_right hpos).mpr (hmono i)
    · have hflag' : (tia && decide (0 < ncpus)) = false := by
        revert hflag
        cases (tia && decide (0 < ncpus)) <;> simp
      simp only [hflag', Bool.false_eq_true, if_false]
      exact hmono i
  have htc : (∃ i, comparisonSample tia ncpus la i > c i) →
      ∃ i, comparisonSample tia ncpus la' i > c i := by
    rintro ⟨i, hi⟩
    exact ⟨i, lt_of_lt_of_le hi (hcomp i)⟩
  have htw : (∃ i, comparisonSample tia ncpus la i > w i) →
      ∃ i, comparisonSample tia ncpus la' i > w i := by
    rintro ⟨i, hi⟩
    exact ⟨i, lt_of_lt_of_le hi (hcomp i)⟩
  rw [check_load_status_eq, check_load_status_eq]
  by_cases h1 : ∃ i, comparisonSample tia ncpus la i > c i
  · rw [if_pos h1, if_pos (htc h1)]
  · rw [if_neg h1]
    by_cases h2 : ∃ i, comparisonSample tia ncpus la i > w i
    · rw [if_pos h2]
      by_cases h1' : ∃ i, comparisonSample tia ncpus la' i > c i
      · rw [if_pos h1']
        norm_num [STATE_WARNING, STATE_CRITICAL]
      · rw [if_neg h1', if_pos (htw h2)]
    · rw [if_neg h2]
      split_ifs <;> norm_num [STATE_OK, STATE_WARNING, STATE_CRITICAL]

/-- Witness for C6 at two comparable concrete samples. -/
theorem claim_C6_witness :
    check_load_status false 0 (triple 0 0 0) (triple 1 1 1) (triple 2 2 2)
      ≤ check_load_status false 0 (triple 3 3 3) (triple 1 1 1) (triple 2 2 2) :=
  claim_C6_monotone false 0 (triple 0 0 0) (triple 3 3 3) (triple 1 1 1)
    (triple 2 2 2) (by decide) (by decide)

/-- C7: a negative raw load value (the retrieval-failure sentinel) makes
the run exit UNKNOWN before building the status line — no status line, no
performance data — whatever the thresholds, scaling mode or CPU count. -/
theorem claim_C7_negative_sentinel (w c : Fin 3 → Rat) (tia : Bool) (ncpus : Int)
    (la : Fin 3 → Rat) (h : la 0 < 0 ∨ la 1 < 0 ∨ la 2 < 0) :
    run_check w c tia ncpus la = CheckOutcome.earlyExit STATE_UNKNOWN := by
  rcases hv : validate_arguments w c with _ | e
  · simp only [run_check, hv]
    rw [if_pos h]
  · simp only [run_check, hv]
    rw [validate_arguments_some_code w c e hv]

/-- Witness for C7 at load = (-1, 1, 1). -/
theorem claim_C7_witness :
    run_check wload_default cload_default false 0 (triple (-1) 1 1)
      = CheckOutcome.earlyExit STATE_UNKNOWN :=
  claim_C7_negative_sentinel wload_default cload_default false 0 (triple (-1) 1 1)
    (Or.inl (by decide))

/-- C8: for a listing of at least 2 lines and topN > 0, the ranking step
outputs exactly min(listing.length, topN + 1) lines, the header line stays
first (it is counted in the budget but never sorted), and every printed
line is a row of the listing. -/
theorem claim_C8_ranking (chld_out : List (List Char)) (procpcpu : List Char → Rat)
    (n : Int) (h2 : 2 ≤ chld_out.length) (hn : 0 < n) :
    ∃ out, print_top_consuming_processes 0 chld_out procpcpu n = Except.ok out ∧
      out.length = min chld_out.length (n + 1).toNat ∧
      out.head? = chld_out.head? ∧
      ∀ l ∈ out, l ∈ chld_out := by
  obtain ⟨hd, t, rfl⟩ : ∃ hd t, chld_out = hd :: t := by
    cases chld_out with
    | nil => simp at h2
    | cons hd t => exact ⟨hd, t, rfl⟩
  simp only [print_top_consuming_processes]
  rw [if_neg (by norm_num), if_neg (not_lt.mpr h2)]
  have hlts1 : 1 ≤ min (hd :: t).length (n + 1).toNat := by
    simp only [List.length_cons]
    omega
  refine ⟨_, rfl, ?_, ?_, ?_⟩
  · simp only [List.length_take, List.length_cons, List.length_insertionSort]
    omega
  · obtain ⟨m, hm⟩ : ∃ m, min (hd :: t).length (n + 1).toNat = m + 1 :=
      ⟨min (hd :: t).length (n + 1).toNat - 1, by omega⟩
    rw [hm, List.take_succ_cons]
    rfl
  · intro l hl
    have hperm : (hd :: (t.insertionSort fun a b => procpcpu b ≤ procpcpu a)).Perm
        (hd :: t) :=
      List.Perm.cons hd (List.perm_insertionSort _ t)
    exact hperm.subset (List.take_subset _ _ hl)

/-- Witness for C8 at a three-line listing with topN = 1. -/
theorem claim_C8_witness :
    ∃ out, print_top_consuming_processes 0 [("H".data), ("a".data), ("b".data)]
        (fun _ => 0) 1 = Except.ok out ∧
      out.length = min ([("H".data), ("a".data), ("b".data)] : List (List Char)).length
        ((1 : Int) + 1).toNat ∧
      out.head? = ([("H".data), ("a".data), ("b".data)] : List (List Char)).head? ∧
      ∀ l ∈ out, l ∈ ([("H".data), ("a".data), ("b".data)] : List (List Char)) :=
  claim_C8_ranking [("H".data), ("a".data), ("b".data)] (fun _ => 0) 1
    (by decide) (by decide)

/-- C9: failures of the top-process sub-step are local — a non-zero exit
of the listing command, or fewer than 2 output lines, make the sub-step
report UNKNOWN, while the program's primary outcome (and exit code) stays
exactly what the load evaluation determined. -/
theorem claim_C9_local_failure (ret : Int) (lines : List (List Char))
    (procpcpu : List Char → Rat) (n : Int) (w c : Fin 3 → Rat) (tia : Bool)
    (ncpus : Int) (la : Fin 3 → Rat) :
    (ret ≠ 0 → print_top_consuming_processes ret lines procpcpu n
        = Except.error STATE_UNKNOWN) ∧
    (lines.length < 2 → print_top_consuming_processes 0 lines procpcpu n
        = Except.error STATE_UNKNOWN) ∧
    (check_load_main w c tia ncpus la n ret lines procpcpu).1
      = run_check w c tia ncpus la := by
  refine ⟨?_, ?_, ?_⟩
  · intro h
    simp only [print_top_consuming_processes]
    rw [if_pos h]
  · intro h
    simp only [print_top_consuming_processes]
    rw [if_neg (by norm_num), if_pos h]
  · rcases hr : run_check w c tia ncpus la with s | r
    · simp [check_load_main, hr]
    · simp [check_load_main, hr]

/-- Witness for C9: a failing listing command (exit 1, no output) reports
UNKNOWN locally while the primary outcome is unchanged. -/
theorem claim_C9_witness :
    print_top_consuming_processes 1 [] (fun _ => 0) 3 = Except.error STATE_UNKNOWN ∧
    (check_load_main wload_default cload_default false 0 (triple 1 1 1) 3 1 []
        (fun _ => 0)).1
      = run_check wload_default cload_default false 0 (triple 1 1 1) := by
  refine ⟨?_, ?_⟩
  · exact (claim_C9_local_failure 1 [] (fun _ => 0) 3 wload_default cload_default
      false 0 (triple 1 1 1)).1 (by decide)
  · exact (claim_C9_local_failure 1 [] (fun _ => 0) 3 wload_default cload_default
      false 0 (triple 1 1 1)).2.2

/-- C10: both threshold triplets default to (0,0,0); that configuration
passes validation, and any load sample with all three values strictly
positive then yields exit status CRITICAL, since every comparison value
strictly exceeds the zero critical threshold. -/
theorem claim_C10_defaults_critical :
    (∀ i, wload_default i = 0 ∧ cload_default i = 0) ∧
    validate_arguments wload_default cload_default = none ∧
    (∀ (tia : Bool) (ncpus : Int) (la : Fin 3 → Rat), (∀ i, 0 < la i) →
      run_check wload_default cload_default tia ncpus la
        = CheckOutcome.reported STATE_CRITICAL) := by
  refine ⟨fun i => ⟨rfl, rfl⟩, by decide, ?_⟩
  intro tia ncpus la hla
  have hval : validate_arguments wload_default cload_default = none := by decide
  have hneg : ¬ (la 0 < 0 ∨ la 1 < 0 ∨ la 2 < 0) := by
    push_neg
    exact ⟨le_of_lt (hla 0), le_of_lt (hla 1), le_of_lt (hla 2)⟩
  have hex : ∃ i, comparisonSample tia ncpus la i > cload_default i := by
    refine ⟨0, ?_⟩
    simp only [comparisonSample, cload_default]
    by_cases hflag : (tia && decide (0 < ncpus)) = true
    · simp only [hflag, eq_self_iff_true, if_true]
      have h0 : (0 : Rat) < (ncpus : Rat) := by
        rw [Bool.and_eq_true] at hflag
        exact_mod_cast of_decide_eq_true hflag.2
      exact div_pos (hla 0) h0
    · have hflag' : (tia && decide (0 < ncpus)) = false := by
        revert hflag
        cases (tia && decide (0 < ncpus)) <;> simp
      simp only [hflag', Bool.false_eq_true, if_false]
      exact hla 0
  have hstat : check_load_status tia ncpus la wload_default cload_default
      = STATE_CRITICAL := by
    rw [check_load_status_eq, if_pos hex]
  simp only [run_check, hval]
  rw [if_neg hneg, hstat]

/-- Witness for C10 at load = (1, 2, 3), unscaled. -/
theorem claim_C10_witness :
    run_check wload_default cload_default false 0 (triple 1 2 3)
      = CheckOutcome.reported STATE_CRITICAL :=
  claim_C10_defaults_critical.2.2 false 0 (triple 1 2 3) (by decide)

end CheckLoad
